import Mathlib

/-!
Verification of the event-booking server (`index.js`) against its
natural-language specification.

The JavaScript source is shallowly embedded: request handlers become pure
Lean functions over explicit collection state (lists of `(id, document)`
pairs), MongoDB documents become association lists of string keys to a small
JavaScript value type, and the handlers' control flow (status codes, guard
order, field stripping, `$set` merges, cascade deletes) is transliterated
from the source.  External effects (token verification, the connection
probe) are passed in as explicit boolean/function parameters.
-/

namespace EventBooking

/-- JavaScript runtime values, as far as the server's logic inspects them:
`undefined`, `null`, strings, integers and booleans.  Property access on a
missing key yields `undefined`. -/
inductive JsVal where
  | undefined
  | null
  | str (s : String)
  | num (n : Int)
  | bool (b : Bool)
deriving DecidableEq, Repr

/-- JavaScript truthiness for the values of `JsVal`: `undefined`, `null`,
the empty string, `0` and `false` are falsy; everything else is truthy. -/
def truthy : JsVal → Bool
  | .undefined => false
  | .null => false
  | .str s => s ≠ ""
  | .num n => n ≠ 0
  | .bool b => b

/-- JavaScript strict equality `===` restricted to the values of `JsVal`:
values of different type never compare equal, and same-typed values compare
structurally (no floats in the model, so no NaN caveat). -/
def strictEq (a b : JsVal) : Bool := a = b

/-- JavaScript `a || b`: returns `a` when it is truthy, otherwise `b`. -/
def jsOr (a b : JsVal) : JsVal := if truthy a then a else b

/-- A schemaless document: an association list from field names to values,
first binding wins (JS objects and Mongo documents have unique keys; all
documents built in this development keep that shape). -/
abbrev Doc := List (String × JsVal)

/-- Property access `doc.k`: the first binding's value, `undefined` when the
key is absent. -/
def Doc.get (d : Doc) (k : String) : JsVal :=
  match d.find? (fun kv => kv.1 == k) with
  | some kv => kv.2
  | none => .undefined

/-- Key presence: whether the document carries the field at all (even with a
falsy value). -/
def Doc.hasKey (d : Doc) (k : String) : Bool :=
  d.any (fun kv => kv.1 == k)

/-- JavaScript `delete doc.k`: remove the binding for `k`. -/
def Doc.del (d : Doc) (k : String) : Doc :=
  d.filter (fun kv => kv.1 != k)

/-- JavaScript `doc.k = v`: overwrite the binding in place when the key is
present, append otherwise. -/
def Doc.set : Doc → String → JsVal → Doc
  | [], k, v => [(k, v)]
  | kv :: rest, k, v =>
    if kv.1 == k then (k, v) :: rest else kv :: Doc.set rest k v

/-- Mongo `$set` update: apply every binding of `upd` to `d` in order. -/
def Doc.setFields (d : Doc) (upd : Doc) : Doc :=
  upd.foldl (fun acc kv => acc.set kv.1 kv.2) d

/-- The request-scoped identity `req.user` produced by the authentication
middleware: `uid`, `email`, `name`, each an arbitrary JS value (possibly
`undefined`). -/
structure Ident where
  uid : JsVal
  email : JsVal
  name : JsVal
deriving DecidableEq, Repr

/-- `isCreator` (index.js lines 147–171), transliterated: six guarded
strict-equality probes in source order, each guarded by the truthiness of
the resource's own field, returning at the first success and `false` when
none fire. -/
def isCreator (resource : Doc) (userEmail userUid : JsVal) : Bool :=
  if truthy (resource.get "userEmail") && strictEq (resource.get "userEmail") userEmail then true
  else if truthy (resource.get "creatorEmail") && strictEq (resource.get "creatorEmail") userEmail then true
  else if truthy (resource.get "authorEmail") && strictEq (resource.get "authorEmail") userEmail then true
  else if truthy (resource.get "userId") && strictEq (resource.get "userId") userUid then true
  else if truthy (resource.get "creatorId") && strictEq (resource.get "creatorId") userUid then true
  else if truthy (resource.get "authorId") && strictEq (resource.get "authorId") userUid then true
  else false

/-- The ownership predicate exactly as the specification words it: each of
the six comparisons counts whenever the resource *has* the field (presence,
not truthiness).  Stated from the spec's words for comparison with
`isCreator`, which is taken from the source. -/
def specOwnerCheckPresent (resource : Doc) (userEmail userUid : JsVal) : Bool :=
  (resource.hasKey "userEmail" && strictEq (resource.get "userEmail") userEmail) ||
  (resource.hasKey "creatorEmail" && strictEq (resource.get "creatorEmail") userEmail) ||
  (resource.hasKey "authorEmail" && strictEq (resource.get "authorEmail") userEmail) ||
  (resource.hasKey "userId" && strictEq (resource.get "userId") userUid) ||
  (resource.hasKey "creatorId" && strictEq (resource.get "creatorId") userUid) ||
  (resource.hasKey "authorId" && strictEq (resource.get "authorId") userUid)

/-! ### Identity resolution (`authenticateToken`, index.js lines 75–144) -/

/-- The request ingredients the middleware inspects: the `Authorization`
header and the two fallback header pairs.  A header absent from the request
is `none`; Express exposes a present header's value as a string (possibly
empty). -/
structure AuthRequest where
  authorization : Option String
  xUserEmail : Option String
  userEmailHdr : Option String
  xUserUid : Option String
  userUidHdr : Option String
deriving DecidableEq, Repr

/-- Truthiness of an optional header value (`undefined` or a string). -/
def truthyHdr : Option String → Bool
  | none => false
  | some s => s ≠ ""

/-- JavaScript `a || b` on optional header values. -/
def hdrOr (a b : Option String) : Option String := if truthyHdr a then a else b

/-- `email.split("@")[0]`: the part of the string before the first `@`
(the whole string when there is no `@`). -/
def localPart (s : String) : String := (s.splitOn "@").headD ""

/-- Claims of a successfully verified Firebase ID token. -/
structure TokenClaims where
  uid : JsVal
  email : JsVal
  name : JsVal
deriving DecidableEq, Repr

/-- Outcome of the middleware: `req.user` attached and the chain continued,
or a 401 response.  `verifyCalled` records whether `verifyIdToken` ran. -/
structure AuthOutcome where
  user : Option Ident
  status : Option Nat
  verifyCalled : Bool
deriving DecidableEq, Repr

/-- `authenticateToken` (index.js lines 75–144), transliterated.  Token
extraction follows `authHeader?.startsWith("Bearer ") ?
authHeader.split("Bearer ")[1] : null`; the header fallback pair is probed
first, before any token verification; the verifier is passed in as a
function `verify` (`none` = verification throws), guarded by
`firebaseAdminInitialized`. -/
def authenticateToken (req : AuthRequest) (firebaseAdminInitialized : Bool)
    (verify : String → Option TokenClaims) : AuthOutcome :=
  let token : Option String :=
    match req.authorization with
    | some h => if h.startsWith "Bearer " then some ((h.splitOn "Bearer ").getD 1 "") else none
    | none => none
  let userEmail := hdrOr req.xUserEmail req.userEmailHdr
  let userUid := hdrOr req.xUserUid req.userUidHdr
  if truthyHdr userEmail && truthyHdr userUid then
    { user := some { uid := .str (userUid.getD ""), email := .str (userEmail.getD ""),
                     name := .str (localPart (userEmail.getD "")) },
      status := none, verifyCalled := false }
  else
    match token, firebaseAdminInitialized with
    | some t, true =>
      match verify t with
      | some claims =>
        { user := some { uid := claims.uid, email := claims.email,
                         name := jsOr claims.name (match claims.email with
                           | .str e => .str (localPart e)
                           | _ => .undefined) },
          status := none, verifyCalled := true }
      | none =>
        -- fell through the catch: the trailing 401 ladder runs
        if !token.isSome && !truthyHdr userEmail then { user := none, status := some 401, verifyCalled := true }
        else if token.isSome && !truthyHdr userEmail then { user := none, status := some 401, verifyCalled := true }
        else { user := none, status := some 401, verifyCalled := true }
    | _, _ =>
      if !token.isSome && !truthyHdr userEmail then { user := none, status := some 401, verifyCalled := false }
      else if token.isSome && !truthyHdr userEmail then { user := none, status := some 401, verifyCalled := false }
      else { user := none, status := some 401, verifyCalled := false }

/-! ### Collections and Mongo primitives

A collection is a list of `(id, document)` pairs; the `_id` is kept beside
the document.  The handler models below start after the per-request
connection guard and the `ObjectId.isValid` format check have passed — the
claims under verification quantify over existing resources, which
presupposes both. -/

abbrev Collection := List (String × Doc)

/-- `findOne({_id: id})`. -/
def findById (c : Collection) (id : String) : Option Doc :=
  (c.find? (fun p => p.1 == id)).map (·.2)

/-- `updateOne({_id: id}, {$set: upd})`: merge `upd` into the matching
document. -/
def updateById (c : Collection) (id : String) (upd : Doc) : Collection :=
  c.map (fun p => if p.1 == id then (p.1, p.2.setFields upd) else p)

/-- `deleteOne({_id: id})`: remove the first match, returning
`deletedCount` with the new collection. -/
def deleteOneById (c : Collection) (id : String) : Nat × Collection :=
  match c.find? (fun p => p.1 == id) with
  | some _ => (1, c.eraseP (fun p => p.1 == id))
  | none => (0, c)

/-- `deleteMany(filter)` for a boolean document filter: remove every
matching document. -/
def deleteMany (c : Collection) (f : Doc → Bool) : Collection :=
  c.filter (fun p => !f p.2)

/-! ### Group lifecycle handlers -/

/-- `POST /createGroup` (index.js lines 241–269), after the connection
guard: stamps ownership from the identity, fills defaults, stamps
`createdAt`, and inserts — the handler performs no required-field
validation.  `newId` is the id Mongo assigns to the insert, `now` the
current ISO timestamp. -/
def createGroup (groups : Collection) (body : Doc) (user : Ident)
    (newId now : String) : Nat × Collection :=
  let g := (body.set "userEmail" user.email).set "userId" user.uid
  let g := if truthy (g.get "creatorName") then g
           else g.set "creatorName" (jsOr user.name (.str "Unknown User"))
  let g := if truthy (g.get "creatorImage") then g
           else g.set "creatorImage" (.str "https://via.placeholder.com/40?text=No+Image")
  let g := g.set "createdAt" (.str now)
  (201, groups ++ [(newId, g)])

/-- `PUT /groups/:id` (index.js lines 290–340), after the connection guard
and the id-format check: 404 when absent, 403 when `isCreator` fails,
otherwise strip the four group ownership keys from the body, stamp
`updatedAt` and `$set`-merge. -/
def putGroup (groups : Collection) (id : String) (body : Doc) (user : Ident)
    (now : String) : Nat × Collection :=
  match findById groups id with
  | none => (404, groups)
  | some group =>
    if !isCreator group user.email user.uid then (403, groups)
    else
      let upd := ((((body.del "userEmail").del "userId").del "creatorEmail").del
        "creatorId").set "updatedAt" (.str now)
      (200, updateById groups id upd)

/-- `DELETE /groups/:id` (index.js lines 343–389), after the connection
guard and the id-format check: 404 when absent, 403 when `isCreator`
fails, otherwise delete and — when `deletedCount === 1` — cascade-delete
every join record whose `groupId` equals the path id. -/
def deleteGroup (groups joined : Collection) (id : String) (user : Ident) :
    Nat × Collection × Collection :=
  match findById groups id with
  | none => (404, groups, joined)
  | some group =>
    if !isCreator group user.email user.uid then (403, groups, joined)
    else
      let (deletedCount, groups') := deleteOneById groups id
      if deletedCount == 1 then
        (200, groups', deleteMany joined (fun j => strictEq (j.get "groupId") (.str id)))
      else (404, groups', joined)

/-- `POST /joinGroup` (index.js lines 460–511), after the connection guard:
400 on a falsy `groupId`, 409 when a join record for
`(groupId, user.email)` already exists, 400 when the id is not a valid
ObjectId (the `new ObjectId` throw), 404 when the group is absent, else
insert the stamped join record.  `validObjectId` stands for
`ObjectId.isValid groupId`. -/
def joinGroup (groups joined : Collection) (groupId : JsVal) (user : Ident)
    (validObjectId : Bool) (newId now : String) : Nat × Collection :=
  if !truthy groupId then (400, joined)
  else
    if (joined.find? (fun p => strictEq (p.2.get "groupId") groupId &&
        strictEq (p.2.get "userEmail") user.email)).isSome then (409, joined)
    else if !validObjectId then (400, joined)
    else
      match groupId with
      | .str gid =>
        match findById groups gid with
        | none => (404, joined)
        | some _ =>
          (201, joined ++ [(newId, [("groupId", groupId), ("userEmail", user.email),
            ("userId", user.uid), ("joinedAt", .str now)])])
      | _ => (404, joined)

/-! ### Article lifecycle handlers -/

/-- `POST /articles` (index.js lines 695–735), after the connection guard:
400 when `title` is falsy (the only validated field), otherwise stamp the
four ownership fields from the identity, fill defaults and insert. -/
def postArticle (articles : Collection) (body : Doc) (user : Ident)
    (newId now : String) : Nat × Collection :=
  if !truthy (body.get "title") then (400, articles)
  else
    let a := (((body.set "authorEmail" user.email).set "authorId" user.uid).set
      "userEmail" user.email).set "userId" user.uid
    let a := if truthy (a.get "authorName") then a
             else a.set "authorName" (jsOr user.name (.str "Anonymous"))
    let a := if truthy (a.get "coverImage") then a
             else a.set "coverImage" (.str "https://via.placeholder.com/800x400?text=No+Image")
    let a := if truthy (a.get "publishDate") then a else a.set "publishDate" (.str now)
    let a := if truthy (a.get "createdAt") then a else a.set "createdAt" (.str now)
    (201, articles ++ [(newId, a)])

/-- `PUT /articles/:id` (index.js lines 773–819), after the connection
guard and the id-format check: 404 when absent, 403 when `isCreator`
fails, otherwise strip the four article ownership keys, stamp `updatedAt`
and `$set`-merge. -/
def putArticle (articles : Collection) (id : String) (body : Doc) (user : Ident)
    (now : String) : Nat × Collection :=
  match findById articles id with
  | none => (404, articles)
  | some article =>
    if !isCreator article user.email user.uid then (403, articles)
    else
      let upd := ((((body.del "authorEmail").del "authorId").del "userEmail").del
        "userId").set "updatedAt" (.str now)
      (200, updateById articles id upd)

/-- `DELETE /articles/:id` (index.js lines 822–864), after the connection
guard and the id-format check: 404 when absent, 403 when `isCreator`
fails, otherwise delete and — when `deletedCount === 1` — cascade-delete
every comment whose `articleId` equals the path id. -/
def deleteArticle (articles comments : Collection) (id : String) (user : Ident) :
    Nat × Collection × Collection :=
  match findById articles id with
  | none => (404, articles, comments)
  | some article =>
    if !isCreator article user.email user.uid then (403, articles, comments)
    else
      let (deletedCount, articles') := deleteOneById articles id
      if deletedCount == 1 then
        (200, articles', deleteMany comments (fun c => strictEq (c.get "articleId") (.str id)))
      else (404, articles', comments)

/-! ### Comment handlers -/

/-- `POST /articles/:id/comments` (index.js lines 889–934), after the
connection guard and the id-format check: 404 when the article is absent,
400 when both `text` and `comment` are falsy, otherwise build the comment —
`authorEmail`/`authorId` always from the authenticated identity,
`authorName`/`authorImage`/`timestamp` from the body when truthy — and
insert. -/
def postComment (articles comments : Collection) (id : String) (body : Doc)
    (user : Ident) (newId now : String) : Nat × Collection :=
  match findById articles id with
  | none => (404, comments)
  | some _ =>
    if !truthy (body.get "text") && !truthy (body.get "comment") then (400, comments)
    else
      let newComment : Doc :=
        [("articleId", .str id),
         ("text", jsOr (body.get "text") (body.get "comment")),
         ("authorName", jsOr (body.get "authorName") (jsOr user.name (.str "Anonymous"))),
         ("authorEmail", user.email),
         ("authorId", user.uid),
         ("authorImage", jsOr (body.get "authorImage") (.str "https://via.placeholder.com/40")),
         ("timestamp", jsOr (body.get "timestamp") (.str now)),
         ("createdAt", .str now)]
      (201, comments ++ [(newId, newComment)])

/-- The comment-creation route as wired in Express: `authenticateToken`
runs first, and the handler body only runs when the middleware attached an
identity (otherwise its 401 response is the route's response). -/
def commentEndpoint (req : AuthRequest) (firebaseAdminInitialized : Bool)
    (verify : String → Option TokenClaims) (articles comments : Collection)
    (id : String) (body : Doc) (newId now : String) : Nat × Collection :=
  match (authenticateToken req firebaseAdminInitialized verify).user with
  | none => (401, comments)
  | some user => postComment articles comments id body user newId now

/-- `DELETE /articles/:id/comments/:commentId` (index.js lines 937–998),
after the connection guard and the id-format checks: the comment is looked
up by `{_id, articleId}`; authorization passes when `isCreator` holds on
the comment, or — only probed when that fails — on the parent article. -/
def deleteComment (articles comments : Collection) (id commentId : String)
    (user : Ident) : Nat × Collection :=
  match (comments.find? (fun p => p.1 == commentId &&
      strictEq (p.2.get "articleId") (.str id))).map (·.2) with
  | none => (404, comments)
  | some comment =>
    let isCommentAuthor := isCreator comment user.email user.uid
    let isArticleAuthor :=
      if isCommentAuthor then false
      else match findById articles id with
        | some article => isCreator article user.email user.uid
        | none => false
    if !isCommentAuthor && !isArticleAuthor then (403, comments)
    else
      let comments' := comments.eraseP (fun p => p.1 == commentId &&
        strictEq (p.2.get "articleId") (.str id))
      (200, comments')

/-! ### Connection/availability guard (`checkDbConnection`, lines 203–236) -/

/-- The module-level connection state the guard reads: `dbConnected`, the
`db` handle being non-null, and `client.topology && client.topology.isConnected()`. -/
structure DbState where
  dbConnected : Bool
  dbInitialized : Bool
  topologyConnected : Bool
deriving DecidableEq, Repr

inductive GuardOutcome where
  | proceed
  | unavailable503
deriving DecidableEq, Repr

/-- What one run of the guard did: the outcome, the `dbConnected` flag it
leaves behind, and whether the admin `ping` / the inline
`connectToMongoDB(1, 1000)` reconnect were performed. -/
structure GuardResult where
  outcome : GuardOutcome
  dbConnectedAfter : Bool
  pingIssued : Bool
  reconnectAttempted : Bool
deriving DecidableEq, Repr

/-- `checkDbConnection` (index.js lines 203–236), transliterated.  When the
state is already marked unavailable, a single inline reconnect is attempted
(only when the client topology is down) and no ping is issued; when the
state is marked available, the admin ping runs, and on ping failure the
state is marked disconnected and 503 returned with *no* reconnect attempt
in that request. -/
def checkDbConnection (st : DbState) (reconnectSucceeds pingSucceeds : Bool) :
    GuardResult :=
  if !st.dbConnected || !st.dbInitialized then
    if !st.topologyConnected then
      if reconnectSucceeds then
        { outcome := .proceed, dbConnectedAfter := true, pingIssued := false,
          reconnectAttempted := true }
      else
        { outcome := .unavailable503, dbConnectedAfter := false, pingIssued := false,
          reconnectAttempted := true }
    else
      { outcome := .unavailable503, dbConnectedAfter := st.dbConnected,
        pingIssued := false, reconnectAttempted := false }
  else
    if pingSucceeds then
      { outcome := .proceed, dbConnectedAfter := st.dbConnected, pingIssued := true,
        reconnectAttempted := false }
    else
      { outcome := .unavailable503, dbConnectedAfter := false, pingIssued := true,
        reconnectAttempted := false }

/-! ### Dashboard aggregation merge (`/dashboard-stats`, lines 649–672) -/

/-- One row of the merged timeline. -/
structure Stat where
  date : String
  users : Nat
  groups : Nat
deriving DecidableEq, Repr

/-- Lookup of a per-day count series (`find` by `_id`). -/
def seriesLookup (l : List (String × Nat)) (d : String) : Option Nat :=
  (l.find? (fun p => p.1 == d)).map (·.2)

/-- The body of the second merge loop: append a group-day row (users side
zeroed) unless its date is already present in the accumulated rows. -/
def mergeStep (acc : List Stat) (gd : String × Nat) : List Stat :=
  if acc.any (fun s => s.date == gd.1) then acc
  else acc ++ [{ date := gd.1, users := 0, groups := gd.2 }]

/-- The merge of `/dashboard-stats`: one row per user-day (group side
defaulted to 0 via `find`), then each group-day appended unless its date is
already present, then `sort((a, b) => a.date.localeCompare(b.date))` —
modelled as a stable insertion sort on the date key; `localeCompare` on
`YYYY-MM-DD` strings (ASCII digits and hyphens) coincides with code-unit
comparison, which is `String.le`. -/
def mergeStats (usersPerDay groupsPerDay : List (String × Nat)) : List Stat :=
  let stats1 : List Stat := usersPerDay.map (fun ud =>
    { date := ud.1, users := ud.2, groups := (seriesLookup groupsPerDay ud.1).getD 0 })
  let stats2 : List Stat := groupsPerDay.foldl mergeStep stats1
  stats2.insertionSort (fun a b => a.date ≤ b.date)

/-! ### Basic lemmas about the document model -/

theorem Doc.get_cons (kv : String × JsVal) (d : Doc) (k : String) :
    Doc.get (kv :: d) k = if kv.1 = k then kv.2 else Doc.get d k := by
  by_cases h : kv.1 = k
  · simp [Doc.get, h]
  · simp [Doc.get, h]

theorem Doc.hasKey_cons (kv : String × JsVal) (d : Doc) (k : String) :
    Doc.hasKey (kv :: d) k = (kv.1 == k || Doc.hasKey d k) := by
  simp [Doc.hasKey]

theorem Doc.del_cons (kv : String × JsVal) (d : Doc) (k : String) :
    Doc.del (kv :: d) k = if kv.1 = k then Doc.del d k else kv :: Doc.del d k := by
  by_cases h : kv.1 = k
  · simp [Doc.del, List.filter_cons, h]
  · simp [Doc.del, List.filter_cons, h]

theorem Doc.get_set_self (d : Doc) (k : String) (v : JsVal) :
    (d.set k v).get k = v := by
  induction d with
  | nil => simp [Doc.set, Doc.get_cons]
  | cons kv rest ih =>
    by_cases h : kv.1 = k
    · simp [Doc.set, h, Doc.get_cons]
    · simp [Doc.set, h, Doc.get_cons, ih]

theorem Doc.get_set_ne (d : Doc) (k k' : String) (v : JsVal) (h : k ≠ k') :
    (d.set k v).get k' = d.get k' := by
  induction d with
  | nil => simp [Doc.set, Doc.get_cons, h, Doc.get]
  | cons kv rest ih =>
    by_cases hk : kv.1 = k
    · subst hk
      simp [Doc.set, Doc.get_cons, h]
    · simp [Doc.set, hk, Doc.get_cons, ih]

theorem Doc.hasKey_set (d : Doc) (k k' : String) (v : JsVal) :
    (d.set k v).hasKey k' = (k == k' || d.hasKey k') := by
  induction d with
  | nil => simp [Doc.set, Doc.hasKey]
  | cons kv rest ih =>
    by_cases hk : kv.1 = k
    · subst hk
      simp [Doc.set, Doc.hasKey_cons]
    · simp only [Doc.set, beq_iff_eq, hk, if_false, Doc.hasKey_cons, ih]
      cases h1 : (kv.1 == k') <;> cases h2 : (k == k') <;> simp

theorem Doc.get_del_self (d : Doc) (k : String) : (d.del k).get k = .undefined := by
  induction d with
  | nil => simp [Doc.del, Doc.get]
  | cons kv rest ih =>
    rw [Doc.del_cons]
    by_cases h : kv.1 = k
    · rw [if_pos h]; exact ih
    · rw [if_neg h, Doc.get_cons, if_neg h]; exact ih

theorem Doc.get_del_ne (d : Doc) (k k' : String) (h : k ≠ k') :
    (d.del k).get k' = d.get k' := by
  induction d with
  | nil => simp [Doc.del]
  | cons kv rest ih =>
    rw [Doc.del_cons, Doc.get_cons]
    by_cases hk : kv.1 = k
    · rw [if_pos hk, if_neg (by rw [hk]; exact h)]; exact ih
    · rw [if_neg hk, Doc.get_cons, ih]

theorem Doc.hasKey_del_self (d : Doc) (k : String) : (d.del k).hasKey k = false := by
  induction d with
  | nil => simp [Doc.del, Doc.hasKey]
  | cons kv rest ih =>
    rw [Doc.del_cons]
    by_cases h : kv.1 = k
    · rw [if_pos h]; exact ih
    · rw [if_neg h, Doc.hasKey_cons, ih]
      simp [h]

theorem Doc.hasKey_del_ne (d : Doc) (k k' : String) (h : k ≠ k') :
    (d.del k).hasKey k' = d.hasKey k' := by
  induction d with
  | nil => simp [Doc.del]
  | cons kv rest ih =>
    rw [Doc.del_cons, Doc.hasKey_cons]
    by_cases hk : kv.1 = k
    · rw [if_pos hk, ih]
      have : (kv.1 == k') = false := by
        rw [hk]
        exact beq_eq_false_iff_ne.mpr h
      rw [this, Bool.false_or]
    · rw [if_neg hk, Doc.hasKey_cons, ih]

theorem Doc.get_eq_undef_of_hasKey_false (d : Doc) (k : String)
    (h : d.hasKey k = false) : d.get k = .undefined := by
  induction d with
  | nil => rfl
  | cons kv rest ih =>
    rw [Doc.hasKey_cons] at h
    rcases Bool.or_eq_false_iff.mp h with ⟨h1, h2⟩
    rw [Doc.get_cons, if_neg (by simpa using h1)]
    exact ih h2

theorem Doc.hasKey_of_truthy_get (d : Doc) (k : String)
    (h : truthy (d.get k) = true) : d.hasKey k = true := by
  by_contra hc
  rw [Doc.get_eq_undef_of_hasKey_false d k (by simpa using hc)] at h
  simp [truthy] at h

theorem Doc.setFields_cons (d : Doc) (kv : String × JsVal) (rest : Doc) :
    d.setFields (kv :: rest) = (d.set kv.1 kv.2).setFields rest := rfl

theorem Doc.get_setFields_of_hasKey_false (upd : Doc) (d : Doc) (k : String)
    (h : upd.hasKey k = false) : (d.setFields upd).get k = d.get k := by
  induction upd generalizing d with
  | nil => rfl
  | cons kv rest ih =>
    rw [Doc.hasKey_cons] at h
    rcases Bool.or_eq_false_iff.mp h with ⟨h1, h2⟩
    rw [Doc.setFields_cons, ih _ h2, Doc.get_set_ne _ _ _ _ (by simpa using h1)]

/-! ### Lemmas about collections -/

theorem findById_cons (p : String × Doc) (rest : Collection) (id : String) :
    findById (p :: rest) id = if p.1 = id then some p.2 else findById rest id := by
  by_cases h : p.1 = id
  · simp [findById, h]
  · simp [findById, h]

theorem updateById_cons (p : String × Doc) (rest : Collection) (id : String)
    (upd : Doc) :
    updateById (p :: rest) id upd =
      (if p.1 = id then (p.1, p.2.setFields upd) else p) :: updateById rest id upd := by
  by_cases h : p.1 = id
  · simp [updateById, h]
  · simp [updateById, h]

theorem findById_updateById (c : Collection) (id : String) (upd : Doc) (d : Doc)
    (h : findById c id = some d) :
    findById (updateById c id upd) id = some (d.setFields upd) := by
  induction c with
  | nil => simp [findById] at h
  | cons p rest ih =>
    rw [findById_cons] at h
    rw [updateById_cons]
    by_cases hp : p.1 = id
    · rw [if_pos hp] at h
      rw [if_pos hp, findById_cons, if_pos hp]
      injection h with h
      rw [h]
    · rw [if_neg hp] at h
      rw [if_neg hp, findById_cons, if_neg hp]
      exact ih h

/-! ### Lemmas about JS values -/

theorem strictEq_true_iff (a b : JsVal) : strictEq a b = true ↔ a = b := by
  simp [strictEq]

theorem truthy_guard_false (v e : JsVal) (he : e = .undefined ∨ e = .null) :
    (truthy v && strictEq v e) = false := by
  rcases he with rfl | rfl <;> cases v <;> simp [truthy, strictEq]

/-! ### Lemmas about per-day count series -/

theorem seriesLookup_cons (p : String × Nat) (rest : List (String × Nat))
    (k : String) :
    seriesLookup (p :: rest) k = if p.1 = k then some p.2 else seriesLookup rest k := by
  by_cases h : p.1 = k
  · simp [seriesLookup, h]
  · simp [seriesLookup, h]

theorem seriesLookup_eq_some (l : List (String × Nat)) (k : String) (v : Nat)
    (hnd : (l.map Prod.fst).Nodup) (hmem : (k, v) ∈ l) :
    seriesLookup l k = some v := by
  induction l with
  | nil => simp at hmem
  | cons p rest ih =>
    simp only [List.map_cons, List.nodup_cons] at hnd
    rw [seriesLookup_cons]
    rcases List.mem_cons.mp hmem with heq | hmem'
    · subst heq
      rw [if_pos rfl]
    · have hne : p.1 ≠ k := by
        intro hpk
        exact hnd.1 (hpk ▸ List.mem_map_of_mem Prod.fst hmem')
      rw [if_neg hne]
      exact ih hnd.2 hmem'

theorem seriesLookup_eq_none (l : List (String × Nat)) (k : String)
    (h : k ∉ l.map Prod.fst) : seriesLookup l k = none := by
  induction l with
  | nil => rfl
  | cons p rest ih =>
    simp only [List.map_cons, List.mem_cons, not_or] at h
    rw [seriesLookup_cons, if_neg (Ne.symm h.1)]
    exact ih h.2

/-- One truthiness-guarded probe of `isCreator` succeeds exactly when the
resource carries the field, the field is truthy, and it strictly equals the
identity value. -/
theorem truthy_guard_iff (d : Doc) (k : String) (x : JsVal) :
    (truthy (d.get k) && strictEq (d.get k) x) = true ↔
      (d.hasKey k = true ∧ truthy (d.get k) = true ∧ d.get k = x) := by
  constructor
  · intro h
    rw [Bool.and_eq_true] at h
    exact ⟨Doc.hasKey_of_truthy_get _ _ h.1, h.1, (strictEq_true_iff _ _).mp h.2⟩
  · rintro ⟨-, h1, h2⟩
    rw [Bool.and_eq_true]
    exact ⟨h1, (strictEq_true_iff _ _).mpr h2⟩

/-- A collection in which the id was found loses exactly one document under
`deleteOne`. -/
theorem deleteOneById_of_found (c : Collection) (id : String)
    (h : (findById c id).isSome) : (deleteOneById c id).1 = 1 := by
  unfold findById at h
  unfold deleteOneById
  cases hf : c.find? (fun p => p.1 == id) with
  | none => rw [hf] at h; simp at h
  | some p => simp [hf]

/-! ### Claim theorems -/

/-- C1, counterexample: the claim's ownership check — a comparison counts
whenever the resource field is *present* — disagrees with `isCreator` on a
resource whose `authorEmail` is present but empty (a value the repository's
own legacy comment route stores) probed with an identity email that equals
it: the claim's check says owner, the code says not. -/
theorem ownership_presence_claim_counterexample :
    isCreator [("authorEmail", JsVal.str "")] (JsVal.str "") JsVal.undefined = false ∧
    specOwnerCheckPresent [("authorEmail", JsVal.str "")] (JsVal.str "") JsVal.undefined = true := by
  decide

/-- C1, amended: `isCreator` returns true iff at least one of the six
comparisons holds with the resource field present *and truthy* (a present
but falsy field — empty string — is skipped just like an absent one); and
Update/Delete on an existing resource answer 200 exactly when this check
holds (for comment deletion, on the comment or on its parent article), 403
otherwise. -/
theorem ownership_check_gates_mutation :
    (∀ (r : Doc) (e u : JsVal),
      isCreator r e u = true ↔
        ((r.hasKey "userEmail" = true ∧ truthy (r.get "userEmail") = true ∧ r.get "userEmail" = e) ∨
         (r.hasKey "creatorEmail" = true ∧ truthy (r.get "creatorEmail") = true ∧ r.get "creatorEmail" = e) ∨
         (r.hasKey "authorEmail" = true ∧ truthy (r.get "authorEmail") = true ∧ r.get "authorEmail" = e) ∨
         (r.hasKey "userId" = true ∧ truthy (r.get "userId") = true ∧ r.get "userId" = u) ∨
         (r.hasKey "creatorId" = true ∧ truthy (r.get "creatorId") = true ∧ r.get "creatorId" = u) ∨
         (r.hasKey "authorId" = true ∧ truthy (r.get "authorId") = true ∧ r.get "authorId" = u))) ∧
    (∀ (groups : Collection) (id : String) (body : Doc) (user : Ident) (now : String) (g : Doc),
      findById groups id = some g →
      (putGroup groups id body user now).1 =
        if isCreator g user.email user.uid then 200 else 403) ∧
    (∀ (groups joined : Collection) (id : String) (user : Ident) (g : Doc),
      findById groups id = some g →
      (deleteGroup groups joined id user).1 =
        if isCreator g user.email user.uid then 200 else 403) ∧
    (∀ (articles : Collection) (id : String) (body : Doc) (user : Ident) (now : String) (a : Doc),
      findById articles id = some a →
      (putArticle articles id body user now).1 =
        if isCreator a user.email user.uid then 200 else 403) ∧
    (∀ (articles comments : Collection) (id : String) (user : Ident) (a : Doc),
      findById articles id = some a →
      (deleteArticle articles comments id user).1 =
        if isCreator a user.email user.uid then 200 else 403) ∧
    (∀ (articles comments : Collection) (id commentId : String) (user : Ident) (c : Doc),
      (comments.find? (fun p => p.1 == commentId &&
        strictEq (p.2.get "articleId") (.str id))).map (·.2) = some c →
      (deleteComment articles comments id commentId user).1 =
        if (isCreator c user.email user.uid ||
            (match findById articles id with
             | some a => isCreator a user.email user.uid
             | none => false)) then 200 else 403) := by
  refine ⟨?_, ?_, ?_, ?_, ?_, ?_⟩
  · intro r e u
    simp only [← truthy_guard_iff]
    unfold isCreator
    cases h1 : (truthy (r.get "userEmail") && strictEq (r.get "userEmail") e) <;>
    cases h2 : (truthy (r.get "creatorEmail") && strictEq (r.get "creatorEmail") e) <;>
    cases h3 : (truthy (r.get "authorEmail") && strictEq (r.get "authorEmail") e) <;>
    cases h4 : (truthy (r.get "userId") && strictEq (r.get "userId") u) <;>
    cases h5 : (truthy (r.get "creatorId") && strictEq (r.get "creatorId") u) <;>
    cases h6 : (truthy (r.get "authorId") && strictEq (r.get "authorId") u) <;>
    simp [h1, h2, h3, h4, h5, h6]
  · intro groups id body user now g h
    unfold putGroup
    rw [h]
    cases hic : isCreator g user.email user.uid <;> simp [hic]
  · intro groups joined id user g h
    unfold deleteGroup
    rw [h]
    cases hic : isCreator g user.email user.uid
    · simp [hic]
    · rcases hdo : deleteOneById groups id with ⟨cnt, groups2⟩
      have h1 : cnt = 1 := by
        have h2 := deleteOneById_of_found groups id (by simp [h])
        rw [hdo] at h2
        exact h2
      subst h1
      simp [hic, hdo]
  · intro articles id body user now a h
    unfold putArticle
    rw [h]
    cases hic : isCreator a user.email user.uid <;> simp [hic]
  · intro articles comments id user a h
    unfold deleteArticle
    rw [h]
    cases hic : isCreator a user.email user.uid
    · simp [hic]
    · rcases hdo : deleteOneById articles id with ⟨cnt, articles2⟩
      have h1 : cnt = 1 := by
        have h2 := deleteOneById_of_found articles id (by simp [h])
        rw [hdo] at h2
        exact h2
      subst h1
      simp [hic, hdo]
  · intro articles comments id commentId user c hc
    unfold deleteComment
    rw [hc]
    cases h1 : isCreator c user.email user.uid
    · simp only [h1]
      cases hfa : findById articles id with
      | none => simp [h1, hfa]
      | some a => cases h2 : isCreator a user.email user.uid <;> simp [h1, hfa, h2]
    · simp [h1]

/-- C1, witness: on a concrete one-group collection the owner's update
answers 200. -/
theorem ownership_check_gates_mutation_witness :
    (putGroup [("g1", [("userEmail", JsVal.str "owner@x")])] "g1" []
      ⟨JsVal.str "u1", JsVal.str "owner@x", JsVal.str "owner"⟩ "T1").1 = 200 := by
  have h := ownership_check_gates_mutation.2.1
    [("g1", [("userEmail", JsVal.str "owner@x")])] "g1" []
    ⟨JsVal.str "u1", JsVal.str "owner@x", JsVal.str "owner"⟩ "T1"
    [("userEmail", JsVal.str "owner@x")] (by decide)
  rw [h]
  decide

/-- The update document built by `PUT /groups/:id` carries none of the four
group ownership keys: they are deleted from the body and only `updatedAt`
is added. -/
theorem groupUpdateDoc_hasKey_false (body : Doc) (now : String) (k : String)
    (hk : k ∈ (["userEmail", "userId", "creatorEmail", "creatorId"] : List String)) :
    (((((body.del "userEmail").del "userId").del "creatorEmail").del "creatorId").set
      "updatedAt" (.str now)).hasKey k = false := by
  fin_cases hk <;>
    simp [Doc.hasKey_set, Doc.hasKey_del_ne, Doc.hasKey_del_self]

/-- The update document built by `PUT /articles/:id` carries none of the
four article ownership keys. -/
theorem articleUpdateDoc_hasKey_false (body : Doc) (now : String) (k : String)
    (hk : k ∈ (["authorEmail", "authorId", "userEmail", "userId"] : List String)) :
    (((((body.del "authorEmail").del "authorId").del "userEmail").del "userId").set
      "updatedAt" (.str now)).hasKey k = false := by
  fin_cases hk <;>
    simp [Doc.hasKey_set, Doc.hasKey_del_ne, Doc.hasKey_del_self]

/-- C2, counterexample: a group update whose payload carries the ownership
key `authorEmail` — one of the six names the claim says are stripped — is
*not* stripped: the merge stores the client's value, so a stored ownership
field changed (from absent to `"evil@x"`).  Only the four group-convention
keys are deleted by the group route. -/
theorem ownership_write_once_counterexample :
    (putGroup [("g1", [("userEmail", JsVal.str "owner@x")])] "g1"
      [("authorEmail", JsVal.str "evil@x")]
      ⟨JsVal.str "u1", JsVal.str "owner@x", JsVal.str "owner"⟩ "T1").1 = 200 ∧
    (findById (putGroup [("g1", [("userEmail", JsVal.str "owner@x")])] "g1"
      [("authorEmail", JsVal.str "evil@x")]
      ⟨JsVal.str "u1", JsVal.str "owner@x", JsVal.str "owner"⟩ "T1").2 "g1").map
      (fun d => d.get "authorEmail") = some (JsVal.str "evil@x") ∧
    Doc.get [("userEmail", JsVal.str "owner@x")] "authorEmail" = JsVal.undefined := by
  decide

/-- C2, amended: each update route strips the four ownership keys of its own
kind's conventions (Group: `userEmail`, `userId`, `creatorEmail`,
`creatorId`; Article: `authorEmail`, `authorId`, `userEmail`, `userId`), so
those stored fields are unchanged by any update payload; the remaining two
of the six names pass through the merge unstripped. -/
theorem update_preserves_stripped_ownership_fields :
    (∀ (groups : Collection) (id : String) (body : Doc) (user : Ident)
       (now : String) (g : Doc),
      findById groups id = some g →
      ∀ k, k ∈ (["userEmail", "userId", "creatorEmail", "creatorId"] : List String) →
      (findById (putGroup groups id body user now).2 id).map (fun d => d.get k) =
        some (g.get k)) ∧
    (∀ (articles : Collection) (id : String) (body : Doc) (user : Ident)
       (now : String) (a : Doc),
      findById articles id = some a →
      ∀ k, k ∈ (["authorEmail", "authorId", "userEmail", "userId"] : List String) →
      (findById (putArticle articles id body user now).2 id).map (fun d => d.get k) =
        some (a.get k)) := by
  constructor
  · intro groups id body user now g h k hk
    unfold putGroup
    rw [h]
    cases hic : isCreator g user.email user.uid
    · simp [hic, h]
    · simp only [hic, Bool.not_true, Bool.false_eq_true, if_false]
      rw [findById_updateById _ _ _ _ h, Option.map_some',
        Doc.get_setFields_of_hasKey_false _ _ _ (groupUpdateDoc_hasKey_false body now k hk)]
  · intro articles id body user now a h k hk
    unfold putArticle
    rw [h]
    cases hic : isCreator a user.email user.uid
    · simp [hic, h]
    · simp only [hic, Bool.not_true, Bool.false_eq_true, if_false]
      rw [findById_updateById _ _ _ _ h, Option.map_some',
        Doc.get_setFields_of_hasKey_false _ _ _ (articleUpdateDoc_hasKey_false body now k hk)]

/-- C2, witness: a payload that tries to overwrite `userEmail` leaves the
stored `userEmail` unchanged. -/
theorem update_preserves_stripped_ownership_fields_witness :
    (findById (putGroup [("g1", [("userEmail", JsVal.str "owner@x")])] "g1"
      [("userEmail", JsVal.str "evil@x"), ("groupName", JsVal.str "G")]
      ⟨JsVal.str "u1", JsVal.str "owner@x", JsVal.str "owner"⟩ "T1").2 "g1").map
      (fun d => d.get "userEmail") =
      some (Doc.get [("userEmail", JsVal.str "owner@x")] "userEmail") :=
  update_preserves_stripped_ownership_fields.1
    [("g1", [("userEmail", JsVal.str "owner@x")])] "g1"
    [("userEmail", JsVal.str "evil@x"), ("groupName", JsVal.str "G")]
    ⟨JsVal.str "u1", JsVal.str "owner@x", JsVal.str "owner"⟩ "T1"
    [("userEmail", JsVal.str "owner@x")] (by decide) "userEmail" (by decide)

/-- C3: a request carrying both fallback header values (non-empty claimed
email and claimed uid) and a bearer token resolves to the identity built
from the headers — uid from the uid header, email from the email header,
display name the part of the email before the `@` — with `verifyIdToken`
never called, for every verifier and every initialization state. -/
theorem fallback_headers_take_precedence (req : AuthRequest)
    (firebaseAdminInitialized : Bool) (verify : String → Option TokenClaims)
    (t e u : String)
    (_ht : req.authorization = some ("Bearer " ++ t))
    (he : hdrOr req.xUserEmail req.userEmailHdr = some e) (hne : e ≠ "")
    (hu : hdrOr req.xUserUid req.userUidHdr = some u) (hnu : u ≠ "") :
    authenticateToken req firebaseAdminInitialized verify =
      { user := some { uid := .str u, email := .str e, name := .str (localPart e) },
        status := none, verifyCalled := false } := by
  unfold authenticateToken
  simp only [he, hu]
  simp [truthyHdr, hne, hnu]

/-- C3, witness: concrete request with both fallback headers and a bearer
token whose verification would even succeed — the headers still win and the
verifier is never consulted. -/
theorem fallback_headers_take_precedence_witness :
    authenticateToken ⟨some "Bearer tok123", some "h@e.com", none, some "huid", none⟩ true
      (fun _ => some ⟨JsVal.str "tuid", JsVal.str "tok@e.com", JsVal.str "Tok"⟩) =
      { user := some { uid := JsVal.str "huid", email := JsVal.str "h@e.com",
                       name := JsVal.str (localPart "h@e.com") },
        status := none, verifyCalled := false } :=
  fallback_headers_take_precedence
    ⟨some "Bearer tok123", some "h@e.com", none, some "huid", none⟩ true
    (fun _ => some ⟨JsVal.str "tuid", JsVal.str "tok@e.com", JsVal.str "Tok"⟩)
    "tok123" "h@e.com" "huid" (by decide) rfl (by decide) rfl (by decide)

/-- C4, counterexample: the stored comment's `authorName` — an author field
— is taken from the request body when the client supplies one, not from the
resolved identity, refuting the claim's "and all other author fields". -/
theorem comment_author_fields_counterexample :
    ((postComment [("a1", [("title", JsVal.str "A")])] [] "a1"
      [("text", JsVal.str "hi"), ("authorName", JsVal.str "Impostor")]
      ⟨JsVal.str "u2", JsVal.str "real@x", JsVal.str "real"⟩ "c1" "T2").2.map
      (fun p => p.2.get "authorName")) = [JsVal.str "Impostor"] ∧
    (⟨JsVal.str "u2", JsVal.str "real@x", JsVal.str "real"⟩ : Ident).name =
      JsVal.str "real" ∧
    JsVal.str "Impostor" ≠ JsVal.str "real" := by
  decide

/-- C4, amended: comment creation requires an authenticated identity (the
route answers 401 and inserts nothing when the middleware rejects), and the
stored comment's `authorEmail` and `authorId` are always taken from the
resolved identity regardless of the body; `authorName` and `authorImage`,
by contrast, accept truthy client-supplied values, defaulting to the
identity's display name and a placeholder. -/
theorem comment_creation_author_identity :
    (∀ (req : AuthRequest) (fi : Bool) (verify : String → Option TokenClaims)
       (articles comments : Collection) (id : String) (body : Doc) (newId now : String),
      (authenticateToken req fi verify).user = none →
      commentEndpoint req fi verify articles comments id body newId now = (401, comments)) ∧
    (∀ (articles comments : Collection) (id : String) (body : Doc) (user : Ident)
       (newId now : String) (a : Doc),
      findById articles id = some a →
      (truthy (body.get "text") || truthy (body.get "comment")) = true →
      (postComment articles comments id body user newId now).2.map
          (fun p => p.2.get "authorEmail") =
        comments.map (fun p => p.2.get "authorEmail") ++ [user.email] ∧
      (postComment articles comments id body user newId now).2.map
          (fun p => p.2.get "authorId") =
        comments.map (fun p => p.2.get "authorId") ++ [user.uid]) := by
  constructor
  · intro req fi verify articles comments id body newId now h
    unfold commentEndpoint
    rw [h]
  · intro articles comments id body user newId now a h hg
    unfold postComment
    simp only [h]
    rw [show (!truthy (body.get "text") && !truthy (body.get "comment")) =
      !(truthy (body.get "text") || truthy (body.get "comment")) from
      (Bool.not_or _ _).symm, hg]
    constructor <;> simp [Doc.get_cons]

/-- C4, witness: a body carrying a fake `authorEmail` is overridden by the
identity's email. -/
theorem comment_creation_author_identity_witness :
    (postComment [("a1", [("title", JsVal.str "A")])] [] "a1"
      [("text", JsVal.str "hi"), ("authorEmail", JsVal.str "fake@x")]
      ⟨JsVal.str "u2", JsVal.str "real@x", JsVal.str "real"⟩ "c1" "T2").2.map
      (fun p => p.2.get "authorEmail") = [JsVal.str "real@x"] := by
  have h := comment_creation_author_identity.2 [("a1", [("title", JsVal.str "A")])] []
    "a1" [("text", JsVal.str "hi"), ("authorEmail", JsVal.str "fake@x")]
    ⟨JsVal.str "u2", JsVal.str "real@x", JsVal.str "real"⟩ "c1" "T2"
    [("title", JsVal.str "A")] (by decide) (by decide)
  exact h.1.trans (by decide)

/-- C5, counterexample: `POST /createGroup` with an empty body — every
kind-specific required field absent — still answers 201 and inserts the
document; the group route performs no required-field validation at all. -/
theorem create_validation_counterexample :
    (createGroup [] [] ⟨JsVal.str "u1", JsVal.str "a@x", JsVal.str "a"⟩ "g1" "T0").1 = 201 ∧
    (createGroup [] [] ⟨JsVal.str "u1", JsVal.str "a@x", JsVal.str "a"⟩ "g1" "T0").2.length = 1 := by
  decide

/-- C5, amended: group creation never validates and always inserts; article
creation fails 400 (inserting nothing) exactly when `title` is falsy —
`content` is not checked; comment creation on an existing article fails 400
(inserting nothing) exactly when both `text` and `comment` are falsy, and
inserts otherwise. -/
theorem create_validation_as_implemented :
    (∀ (groups : Collection) (body : Doc) (user : Ident) (newId now : String),
      (createGroup groups body user newId now).1 = 201 ∧
      (createGroup groups body user newId now).2.length = groups.length + 1) ∧
    (∀ (articles : Collection) (body : Doc) (user : Ident) (newId now : String),
      (postArticle articles body user newId now).1 =
        (if truthy (body.get "title") then 201 else 400) ∧
      (postArticle articles body user newId now).2.length =
        (if truthy (body.get "title") then articles.length + 1 else articles.length)) ∧
    (∀ (articles comments : Collection) (id : String) (body : Doc) (user : Ident)
       (newId now : String) (a : Doc),
      findById articles id = some a →
      (postComment articles comments id body user newId now).1 =
        (if (truthy (body.get "text") || truthy (body.get "comment")) then 201 else 400) ∧
      (postComment articles comments id body user newId now).2.length =
        (if (truthy (body.get "text") || truthy (body.get "comment"))
         then comments.length + 1 else comments.length)) := by
  refine ⟨?_, ?_, ?_⟩
  · intro groups body user newId now
    constructor <;> simp [createGroup]
  · intro articles body user newId now
    cases ht : truthy (body.get "title") <;> simp [postArticle, ht]
  · intro articles comments id body user newId now a h
    unfold postComment
    simp only [h]
    rw [show (!truthy (body.get "text") && !truthy (body.get "comment")) =
      !(truthy (body.get "text") || truthy (body.get "comment")) from
      (Bool.not_or _ _).symm]
    cases hg : (truthy (body.get "text") || truthy (body.get "comment")) <;> simp [hg]

/-- C5, witness: a comment with no text on an existing article is rejected
with 400. -/
theorem create_validation_as_implemented_witness :
    (postComment [("a1", [("title", JsVal.str "T")])] [] "a1" []
      ⟨JsVal.str "u1", JsVal.str "a@x", JsVal.str "a"⟩ "c1" "T2").1 = 400 := by
  have h := create_validation_as_implemented.2.2 [("a1", [("title", JsVal.str "T")])]
    [] "a1" [] ⟨JsVal.str "u1", JsVal.str "a@x", JsVal.str "a"⟩ "c1" "T2"
    [("title", JsVal.str "T")] (by decide)
  exact h.1.trans (by decide)

/-- C6: cascade completeness — when a group delete answers 200 no join
record with that `groupId` survives, and when an article delete answers 200
no comment with that `articleId` survives. -/
theorem cascade_delete_completeness :
    (∀ (groups joined : Collection) (id : String) (user : Ident),
      (deleteGroup groups joined id user).1 = 200 →
      ∀ p ∈ (deleteGroup groups joined id user).2.2,
        p.2.get "groupId" ≠ JsVal.str id) ∧
    (∀ (articles comments : Collection) (id : String) (user : Ident),
      (deleteArticle articles comments id user).1 = 200 →
      ∀ p ∈ (deleteArticle articles comments id user).2.2,
        p.2.get "articleId" ≠ JsVal.str id) := by
  constructor
  · intro groups joined id user h200 p hp
    unfold deleteGroup at h200 hp
    cases hf : findById groups id with
    | none => rw [hf] at h200; simp at h200
    | some g =>
      simp only [hf] at h200 hp
      cases hic : isCreator g user.email user.uid
      · simp [hic] at h200
      · simp only [hic, Bool.not_true, Bool.false_eq_true, if_false] at h200 hp
        rcases hdo : deleteOneById groups id with ⟨cnt, groups2⟩
        simp only [hdo] at h200 hp
        by_cases hcnt : cnt = 1
        · subst hcnt
          simp only [beq_self_eq_true, if_true, deleteMany, List.mem_filter] at hp
          have h2 := hp.2
          simp only [strictEq, Bool.not_eq_true', decide_eq_false_iff_not] at h2
          exact h2
        · have hb : (cnt == 1) = false := by simpa using hcnt
          rw [hb] at h200
          simp at h200
  · intro articles comments id user h200 p hp
    unfold deleteArticle at h200 hp
    cases hf : findById articles id with
    | none => rw [hf] at h200; simp at h200
    | some a =>
      simp only [hf] at h200 hp
      cases hic : isCreator a user.email user.uid
      · simp [hic] at h200
      · simp only [hic, Bool.not_true, Bool.false_eq_true, if_false] at h200 hp
        rcases hdo : deleteOneById articles id with ⟨cnt, articles2⟩
        simp only [hdo] at h200 hp
        by_cases hcnt : cnt = 1
        · subst hcnt
          simp only [beq_self_eq_true, if_true, deleteMany, List.mem_filter] at hp
          have h2 := hp.2
          simp only [strictEq, Bool.not_eq_true', decide_eq_false_iff_not] at h2
          exact h2
        · have hb : (cnt == 1) = false := by simpa using hcnt
          rw [hb] at h200
          simp at h200

/-- C6, witness: after the owner deletes group `g1`, the surviving join
record (for group `g2`) does not reference `g1`. -/
theorem cascade_delete_completeness_witness :
    Doc.get [("groupId", JsVal.str "g2"), ("userEmail", JsVal.str "m@x")] "groupId" ≠
      JsVal.str "g1" :=
  cascade_delete_completeness.1
    [("g1", [("userEmail", JsVal.str "o@x")])]
    [("j1", [("groupId", JsVal.str "g1"), ("userEmail", JsVal.str "m@x")]),
     ("j2", [("groupId", JsVal.str "g2"), ("userEmail", JsVal.str "m@x")])]
    "g1" ⟨JsVal.str "u1", JsVal.str "o@x", JsVal.str "o"⟩ (by decide)
    ("j2", [("groupId", JsVal.str "g2"), ("userEmail", JsVal.str "m@x")]) (by decide)

/-- C7: a join request for a pair `(groupId, identity.email)` that already
has a join record answers 409 and leaves the joined collection unchanged. -/
theorem join_conflict_no_duplicate (groups joined : Collection) (groupId : JsVal)
    (user : Ident) (validObjectId : Bool) (newId now : String) (p : String × Doc)
    (hmem : p ∈ joined)
    (hgid : strictEq (p.2.get "groupId") groupId = true)
    (hemail : strictEq (p.2.get "userEmail") user.email = true)
    (htruthy : truthy groupId = true) :
    joinGroup groups joined groupId user validObjectId newId now = (409, joined) := by
  unfold joinGroup
  have hfind : (joined.find? (fun p => strictEq (p.2.get "groupId") groupId &&
      strictEq (p.2.get "userEmail") user.email)).isSome = true := by
    rw [List.find?_isSome]
    exact ⟨p, hmem, by rw [Bool.and_eq_true]; exact ⟨hgid, hemail⟩⟩
  rw [htruthy, hfind]
  simp

/-- C7, witness: a concrete duplicate join answers 409 and returns the
collection unchanged. -/
theorem join_conflict_no_duplicate_witness :
    joinGroup [("g1", [("userEmail", JsVal.str "o@x")])]
      [("j1", [("groupId", JsVal.str "g1"), ("userEmail", JsVal.str "m@x")])]
      (JsVal.str "g1") ⟨JsVal.str "u2", JsVal.str "m@x", JsVal.str "m"⟩ true "j2" "T3" =
      (409, [("j1", [("groupId", JsVal.str "g1"), ("userEmail", JsVal.str "m@x")])]) :=
  join_conflict_no_duplicate _ _ _ _ _ _ _
    ("j1", [("groupId", JsVal.str "g1"), ("userEmail", JsVal.str "m@x")])
    (by decide) (by decide) (by decide) (by decide)

/-- C8, counterexample: with the connection marked available, a failed ping
answers 503 with *no* inline reconnect attempt in that same request — even
though a reconnect would have succeeded (`reconnectSucceeds = true`), the
request is not served, refuting the claimed ping-fail → inline-reconnect →
proceed behavior. -/
theorem availability_guard_counterexample :
    checkDbConnection ⟨true, true, true⟩ true false =
      { outcome := .unavailable503, dbConnectedAfter := false,
        pingIssued := true, reconnectAttempted := false } := by
  decide

/-- C8, amended: when the request enters with the connection marked
available, the ping is issued and its failure marks the state degraded and
answers 503 with no reconnect in that request; the single immediate inline
reconnect instead happens on a request that enters already marked
unavailable (with the client topology down), where no ping is issued and
the request proceeds exactly when the reconnect succeeds; entering
unavailable with the topology still connected answers 503 with neither ping
nor reconnect. -/
theorem availability_guard_as_implemented :
    ∀ (top recon ping : Bool),
      checkDbConnection ⟨true, true, top⟩ recon ping =
        { outcome := if ping then .proceed else .unavailable503,
          dbConnectedAfter := ping, pingIssued := true, reconnectAttempted := false } ∧
      checkDbConnection ⟨false, false, false⟩ recon ping =
        { outcome := if recon then .proceed else .unavailable503,
          dbConnectedAfter := recon, pingIssued := false, reconnectAttempted := true } ∧
      checkDbConnection ⟨false, false, true⟩ recon ping =
        { outcome := .unavailable503, dbConnectedAfter := false,
          pingIssued := false, reconnectAttempted := false } := by
  decide

instance : IsTotal Stat (fun a b => a.date ≤ b.date) :=
  ⟨fun a b => le_total a.date b.date⟩

instance : IsTrans Stat (fun a b => a.date ≤ b.date) :=
  ⟨fun _ _ _ h1 h2 => le_trans h1 h2⟩

/-- Invariant of the second merge loop of `/dashboard-stats`: folding
`mergeStep` over group-days keeps the row dates duplicate-free, keeps every
row's two counts equal to the series lookups (missing side 0), and makes
the row dates exactly the accumulated dates plus the processed group-day
keys. -/
theorem mergeFold_props (u g0 : List (String × Nat))
    (hg : (g0.map Prod.fst).Nodup) :
    ∀ (gs : List (String × Nat)) (acc : List Stat),
      (∀ gd ∈ gs, gd ∈ g0) →
      ((acc.map Stat.date).Nodup) →
      (∀ d ∈ u.map Prod.fst, d ∈ acc.map Stat.date) →
      (∀ s ∈ acc, s.users = (seriesLookup u s.date).getD 0 ∧
          s.groups = (seriesLookup g0 s.date).getD 0) →
      (((gs.foldl mergeStep acc).map Stat.date).Nodup ∧
        (∀ s ∈ gs.foldl mergeStep acc,
          s.users = (seriesLookup u s.date).getD 0 ∧
          s.groups = (seriesLookup g0 s.date).getD 0) ∧
        (∀ d, d ∈ (gs.foldl mergeStep acc).map Stat.date ↔
          d ∈ acc.map Stat.date ∨ d ∈ gs.map Prod.fst)) := by
  intro gs
  induction gs with
  | nil =>
    intro acc _ hnd _ hQ
    refine ⟨hnd, hQ, ?_⟩
    intro d
    simp
  | cons gd gs' ih =>
    intro acc hsub hnd husub hQ
    rw [List.foldl_cons]
    by_cases hany : acc.any (fun s => s.date == gd.1) = true
    · have hstep : mergeStep acc gd = acc := by
        unfold mergeStep
        rw [if_pos hany]
      rw [hstep]
      have hres := ih acc (fun x hx => hsub x (List.mem_cons_of_mem _ hx)) hnd husub hQ
      refine ⟨hres.1, hres.2.1, ?_⟩
      intro d
      rw [hres.2.2 d]
      have hin : gd.1 ∈ acc.map Stat.date := by
        rcases List.any_eq_true.mp hany with ⟨s, hs, hsd⟩
        rw [beq_iff_eq] at hsd
        exact hsd ▸ List.mem_map_of_mem Stat.date hs
      simp only [List.map_cons, List.mem_cons]
      constructor
      · rintro (h | h)
        · exact Or.inl h
        · exact Or.inr (Or.inr h)
      · rintro (h | h | h)
        · exact Or.inl h
        · exact Or.inl (h ▸ hin)
        · exact Or.inr h
    · have hstep : mergeStep acc gd = acc ++ [(⟨gd.1, 0, gd.2⟩ : Stat)] := by
        unfold mergeStep
        rw [if_neg hany]
      rw [hstep]
      have hnotin : gd.1 ∉ acc.map Stat.date := by
        intro hmem
        rcases List.mem_map.mp hmem with ⟨s, hs, hsd⟩
        exact hany (List.any_eq_true.mpr ⟨s, hs, by rw [beq_iff_eq]; exact hsd⟩)
      have hnd' : ((acc ++ [(⟨gd.1, 0, gd.2⟩ : Stat)]).map Stat.date).Nodup := by
        rw [List.map_append, List.nodup_append]
        refine ⟨hnd, List.nodup_singleton _, ?_⟩
        intro a ha hb
        have hab : a = gd.1 := by simpa using hb
        exact hnotin (hab ▸ ha)
      have husub' : ∀ d ∈ u.map Prod.fst,
          d ∈ (acc ++ [(⟨gd.1, 0, gd.2⟩ : Stat)]).map Stat.date := by
        intro d hd
        rw [List.map_append]
        exact List.mem_append_left _ (husub d hd)
      have hQ' : ∀ s ∈ acc ++ [(⟨gd.1, 0, gd.2⟩ : Stat)],
          s.users = (seriesLookup u s.date).getD 0 ∧
          s.groups = (seriesLookup g0 s.date).getD 0 := by
        intro s hs
        rcases List.mem_append.mp hs with hs | hs
        · exact hQ s hs
        · have hseq : s = (⟨gd.1, 0, gd.2⟩ : Stat) := List.mem_singleton.mp hs
          subst hseq
          constructor
          · have hnu : gd.1 ∉ u.map Prod.fst := fun hmem => hnotin (husub _ hmem)
            rw [show (⟨gd.1, 0, gd.2⟩ : Stat).date = gd.1 from rfl,
              seriesLookup_eq_none u gd.1 hnu]
            rfl
          · rw [show (⟨gd.1, 0, gd.2⟩ : Stat).date = gd.1 from rfl,
              seriesLookup_eq_some g0 gd.1 gd.2 hg (hsub gd (List.mem_cons_self _ _))]
            rfl
      have hres := ih (acc ++ [(⟨gd.1, 0, gd.2⟩ : Stat)])
        (fun x hx => hsub x (List.mem_cons_of_mem _ hx)) hnd' husub' hQ'
      refine ⟨hres.1, hres.2.1, ?_⟩
      intro d
      rw [hres.2.2 d, List.map_append]
      simp only [List.map_cons, List.map_nil, List.mem_append, List.mem_singleton,
        List.mem_cons]
      tauto

/-- C9: for per-day count series with duplicate-free date keys, every date
of either series appears exactly once in the merged dashboard output, each
row's missing side is 0 (both sides are the series lookups), and the rows
are sorted ascending by date string. -/
theorem dashboard_merge_total_sorted (u g : List (String × Nat))
    (hu : (u.map Prod.fst).Nodup) (hg : (g.map Prod.fst).Nodup) :
    ((mergeStats u g).map Stat.date).Nodup ∧
    (∀ d, d ∈ (mergeStats u g).map Stat.date ↔
      (d ∈ u.map Prod.fst ∨ d ∈ g.map Prod.fst)) ∧
    (∀ s ∈ mergeStats u g,
      s.users = (seriesLookup u s.date).getD 0 ∧
      s.groups = (seriesLookup g s.date).getD 0) ∧
    List.Sorted (· ≤ ·) ((mergeStats u g).map Stat.date) := by
  have hstats1dates : ((u.map (fun ud =>
      (⟨ud.1, ud.2, (seriesLookup g ud.1).getD 0⟩ : Stat))).map Stat.date) =
      u.map Prod.fst := by
    rw [List.map_map]
    rfl
  have h1nd : ((u.map (fun ud =>
      (⟨ud.1, ud.2, (seriesLookup g ud.1).getD 0⟩ : Stat))).map Stat.date).Nodup := by
    rw [hstats1dates]
    exact hu
  have h1sub : ∀ d ∈ u.map Prod.fst, d ∈ (u.map (fun ud =>
      (⟨ud.1, ud.2, (seriesLookup g ud.1).getD 0⟩ : Stat))).map Stat.date := by
    rw [hstats1dates]
    exact fun d hd => hd
  have h1Q : ∀ s ∈ u.map (fun ud =>
      (⟨ud.1, ud.2, (seriesLookup g ud.1).getD 0⟩ : Stat)),
      s.users = (seriesLookup u s.date).getD 0 ∧
      s.groups = (seriesLookup g s.date).getD 0 := by
    intro s hs
    rcases List.mem_map.mp hs with ⟨ud, hud, rfl⟩
    constructor
    · show ud.2 = (seriesLookup u ud.1).getD 0
      rw [seriesLookup_eq_some u ud.1 ud.2 hu hud]
      rfl
    · rfl
  have hfold := mergeFold_props u g hg g
    (u.map (fun ud => (⟨ud.1, ud.2, (seriesLookup g ud.1).getD 0⟩ : Stat)))
    (fun x hx => hx) h1nd h1sub h1Q
  have hms : mergeStats u g = (g.foldl mergeStep (u.map (fun ud =>
      (⟨ud.1, ud.2, (seriesLookup g ud.1).getD 0⟩ : Stat)))).insertionSort
      (fun a b => a.date ≤ b.date) := rfl
  have hperm : List.Perm (mergeStats u g) (g.foldl mergeStep (u.map (fun ud =>
      (⟨ud.1, ud.2, (seriesLookup g ud.1).getD 0⟩ : Stat)))) := by
    rw [hms]
    exact List.perm_insertionSort _ _
  have hpermdates := hperm.map Stat.date
  refine ⟨?_, ?_, ?_, ?_⟩
  · exact hpermdates.nodup_iff.mpr hfold.1
  · intro d
    rw [hpermdates.mem_iff, hfold.2.2 d, hstats1dates]
  · intro s hs
    exact hfold.2.1 s (hperm.mem_iff.mp hs)
  · have hsorted : List.Sorted (fun a b : Stat => a.date ≤ b.date) (mergeStats u g) := by
      rw [hms]
      exact List.sorted_insertionSort _ _
    rw [List.Sorted, List.pairwise_map]
    exact hsorted

/-- C9, witness: on concrete two-day series the merged dates are
duplicate-free. -/
theorem dashboard_merge_total_sorted_witness :
    ((mergeStats [("2024-01-02", 3), ("2024-01-01", 1)]
      [("2024-01-03", 5), ("2024-01-02", 2)]).map Stat.date).Nodup :=
  (dashboard_merge_total_sorted
    [("2024-01-02", 3), ("2024-01-01", 1)] [("2024-01-03", 5), ("2024-01-02", 2)]
    (by decide) (by decide)).1

/-- C10: an identity with no email and no uid (`undefined` or `null` in
either slot) is never judged the creator of any resource, because every
probe of `isCreator` is guarded by the truthiness of the resource's own
field and a truthy field value can never strictly equal `undefined` or
`null`. -/
theorem isCreator_false_of_absent_identity (r : Doc) (e u : JsVal)
    (he : e = .undefined ∨ e = .null) (hu : u = .undefined ∨ u = .null) :
    isCreator r e u = false := by
  unfold isCreator
  simp only [truthy_guard_false _ _ he, truthy_guard_false _ _ hu]
  simp

/-- C10, witness: a resource with every ownership field populated still
rejects the absent identity. -/
theorem isCreator_false_of_absent_identity_witness :
    isCreator [("userEmail", JsVal.str "a@b.c"), ("userId", JsVal.str "u1"),
      ("creatorEmail", JsVal.str "a@b.c"), ("creatorId", JsVal.str "u1"),
      ("authorEmail", JsVal.str "a@b.c"), ("authorId", JsVal.str "u1")]
      JsVal.undefined JsVal.null = false :=
  isCreator_false_of_absent_identity _ _ _ (Or.inl rfl) (Or.inr rfl)

end EventBooking
